import Mathlib

/-!
Verification of the aggregation-pipeline reducer and pipeline generator
(src/packages/compass-aggregations/src/modules/pipeline.js) and of the saved-items
aggregator (src/packages/compass-saved-aggregations-queries/src/stores/
aggregations-queries-items.ts) of the compass repository.

The JavaScript modules are shallowly embedded as Lean functions.  Reference
identity of the pipeline array (the source relies on copy-on-write, sometimes
returning the very same array object) is modelled by tagging the array with a
natural-number identity `ref`; `copyState` stamps the freshly allocated
identity passed in as a parameter.  Stage objects are shallow-copied by
`copyState` in the source (value-identical copies), so stage-level object
identity is not tracked: stages are compared by value.
-/

/- ----------------------------------------------------------------- -/
/- Basic data of modules/pipeline.js                                  -/
/- ----------------------------------------------------------------- -/

/-- Identifier attached to a stage.  `addStage` generates an ObjectId hex string,
while `AddAfterStage` stores the number returned by Date().getTime(). -/
inductive StageId where
  | hexStr (s : String)
  | timeMs (ms : Nat)
  deriving DecidableEq

/-- A preview document.  Document contents are entirely opaque to the pipeline
module (they are only stored and displayed), so they are represented by their
serialized form. -/
structure Doc where
  raw : String
  deriving DecidableEq

/-- A JavaScript Error value; the pipeline module only ever reads `message`. -/
structure JsError where
  message : String
  deriving DecidableEq

/-- Modelled from the spec: `generateStage` (modules/stage, not included under
src/) compiles one stage into its executable form; per the spec the executable
form is determined by the stage operator and the raw stage body text. -/
structure CompiledStage where
  stageOperator : Option String
  body : String
  deriving DecidableEq

/-- One aggregation-pipeline stage.  The field defaults mirror EMPTY_STAGE in
the source (the id of EMPTY_STAGE itself is generated at module load).
`snippet`, `fromStageOperators` and `executor` are absent (undefined) on a
fresh stage and only ever assigned later, hence Option fields defaulting to
none. -/
structure Stage where
  id : StageId := StageId.hexStr ("")
  stageOperator : Option String := none
  stage : String := ""
  isValid : Bool := true
  isEnabled : Bool := true
  isExpanded : Bool := true
  isLoading : Bool := false
  isComplete : Bool := false
  previewDocuments : List Doc := []
  syntaxError : Option String := none
  error : Option String := none
  snippet : Option String := none
  fromStageOperators : Option Bool := none
  executor : Option CompiledStage := none
  deriving DecidableEq

/-- Modelled from the spec: the executable form of a stage as produced by
generateStage (modules/stage is not under src/). -/
def generateStage (s : Stage) : CompiledStage :=
  { stageOperator := s.stageOperator, body := s.stage }

/-- EMPTY_STAGE: all fields are the structure defaults; the nondeterministically
generated ObjectId hex string is a parameter. -/
def EMPTY_STAGE (id : StageId) : Stage := { id := id }

/-- INITIAL_STATE = [ EMPTY_STAGE ]. -/
def INITIAL_STATE (id : StageId) : List Stage := [EMPTY_STAGE id]

/-- DEFAULT_SNIPPET (the braces of the source literal are written as escapes). -/
def DEFAULT_SNIPPET : String := "\x7b\n  \n\x7d"

/-- An entry of the external STAGE_OPERATORS table (package
mongodb-ace-autocompleter).  Only the fields read by this module are kept;
snippet and comment may be absent. -/
structure OpDetails where
  name : String
  snippet : Option String := none
  comment : Option String := none
  deriving DecidableEq

/-- JavaScript `a || b` for an optional string `a`: undefined and the empty
string are falsy. -/
def jsOrString (a : Option String) (b : String) : String :=
  match a with
  | some s => if s = "" then b else s
  | none => b

/-- getStageOperator: STAGE_OPERATORS.find(op => op.name === name).  The table
is external data, passed in as `ops`. -/
def getStageOperator (ops : List OpDetails) (name : Option String) : Option OpDetails :=
  ops.find? (fun op => some op.name == name)

/- ----------------------------------------------------------------- -/
/- The pipeline state and the reducer                                 -/
/- ----------------------------------------------------------------- -/

/-- The pipeline state: the ordered stage list together with the identity of
the array object holding it. -/
structure PipelineRef where
  ref : Nat
  stages : List Stage
  deriving DecidableEq

/-- copyState: state.map(s => Object.assign(..., s)).  Every stage object is
shallow-copied, so the copies are value-identical and the stage list is
unchanged at the value level; the new array object receives the freshly
allocated identity `fresh`. -/
def copyState (fresh : Nat) (state : PipelineRef) : PipelineRef :=
  { ref := fresh, stages := state.stages.map (fun s => s) }

/-- In-place update of the element at an index, as performed by the JS
assignments newState[action.index].field = v on the copied array.  An
out-of-range index leaves the list unchanged (in JS it would throw; theorems
about these updates assume a valid index). -/
def modifyIdx (f : α → α) : Nat → List α → List α
  | _, [] => []
  | 0, a :: l => f a :: l
  | n + 1, a :: l => a :: modifyIdx f n l

/-- splice(i, 1): remove the element at index i (no-op past the end). -/
def spliceDelete : List α → Nat → List α
  | [], _ => []
  | _ :: l, 0 => l
  | a :: l, n + 1 => a :: spliceDelete l n

/-- splice(i, 0, x): insert x at index i (clamped to the length, as in JS). -/
def spliceInsert (i : Nat) (x : α) (l : List α) : List α :=
  l.take i ++ [x] ++ l.drop i

/-- The stageOperator stored at an index.  state[index] on an out-of-range
index throws in JS; it is modelled as none here and the theorems that read it
assume a valid index. -/
def stageOperatorAt (state : PipelineRef) (index : Nat) : Option String :=
  match state.stages.get? index with
  | some s => s.stageOperator
  | none => none

/-- changeStage: copy, then set stage, clear isComplete, clear
fromStageOperators at the index. -/
def changeStage (fresh : Nat) (state : PipelineRef) (index : Nat) (stage : String) :
    PipelineRef :=
  let newState := copyState fresh state
  { newState with
      stages := modifyIdx
        (fun s => { s with stage := stage, isComplete := false,
                           fromStageOperators := some false })
        index newState.stages }

/-- addStage: copy, push a fresh EMPTY_STAGE with a newly generated id. -/
def addStage (fresh : Nat) (newId : StageId) (state : PipelineRef) : PipelineRef :=
  let newState := copyState fresh state
  { newState with stages := newState.stages ++ [EMPTY_STAGE newId] }

/-- AddAfterStage: copy, then splice a fresh stage in at index + 1; its id is
the value of Date().getTime(). -/
def AddAfterStage (fresh : Nat) (nowMs : Nat) (state : PipelineRef) (index : Nat) :
    PipelineRef :=
  let newState := copyState fresh state
  { newState with
      stages := spliceInsert (index + 1) (EMPTY_STAGE (StageId.timeMs nowMs))
        newState.stages }

/-- deleteStage: copy, then splice(index, 1). -/
def deleteStage (fresh : Nat) (state : PipelineRef) (index : Nat) : PipelineRef :=
  let newState := copyState fresh state
  { newState with stages := spliceDelete newState.stages index }

/-- The two splices of moveStage: remove at fromIndex, reinsert the removed
element at toIndex of the shortened list.  An out-of-range fromIndex (which in
JS would splice undefined back in) is outside the model and left as the
identity. -/
def moveAux (l : List Stage) (fromIndex toIndex : Nat) : List Stage :=
  match l.get? fromIndex with
  | some x => spliceInsert toIndex x (spliceDelete l fromIndex)
  | none => l

/-- moveStage: returns the state itself when fromIndex equals toIndex,
otherwise copies and reorders. -/
def moveStage (fresh : Nat) (state : PipelineRef) (fromIndex toIndex : Nat) :
    PipelineRef :=
  if fromIndex = toIndex then state
  else
    let newState := copyState fresh state
    { newState with stages := moveAux newState.stages fromIndex toIndex }

/-- selectStageOperator: when the selected operator differs from the one
stored at the index, copy and regenerate the stage text from the operator's
snippet (optionally prefixed by its comment); otherwise return the state
itself. -/
def selectStageOperator (ops : List OpDetails) (fresh : Nat) (state : PipelineRef)
    (index : Nat) (operatorName : Option String) (isCommenting : Bool) : PipelineRef :=
  if operatorName ≠ stageOperatorAt state index then
    let newState := copyState fresh state
    let operatorDetails := getStageOperator ops operatorName
    let snippet := jsOrString (operatorDetails.bind OpDetails.snippet) DEFAULT_SNIPPET
    let comment := jsOrString (operatorDetails.bind OpDetails.comment) ("")
    let value := if isCommenting then comment ++ snippet else snippet
    { newState with
        stages := modifyIdx
          (fun s => { s with stageOperator := operatorName, stage := value,
                             snippet := some value, isExpanded := true,
                             isComplete := false, fromStageOperators := some true })
          index newState.stages }
  else state

/-- toggleStage: copy, flip isEnabled at the index. -/
def toggleStage (fresh : Nat) (state : PipelineRef) (index : Nat) : PipelineRef :=
  let newState := copyState fresh state
  { newState with
      stages := modifyIdx (fun s => { s with isEnabled := !s.isEnabled })
        index newState.stages }

/-- toggleStageCollapse: copy, flip isExpanded at the index. -/
def toggleStageCollapse (fresh : Nat) (state : PipelineRef) (index : Nat) : PipelineRef :=
  let newState := copyState fresh state
  { newState with
      stages := modifyIdx (fun s => { s with isExpanded := !s.isExpanded })
        index newState.stages }

/-- updateStagePreview: copy; at the index, previewDocuments becomes the
documents when error is null and the empty list otherwise, error becomes the
error message (or null), isLoading is cleared and isComplete is set from the
action. -/
def updateStagePreview (fresh : Nat) (state : PipelineRef) (index : Nat)
    (documents : List Doc) (error : Option JsError) (isComplete : Bool) : PipelineRef :=
  let newState := copyState fresh state
  { newState with
      stages := modifyIdx
        (fun s => { s with
            previewDocuments := if error = none then documents else [],
            error := error.map JsError.message,
            isLoading := false,
            isComplete := isComplete })
        index newState.stages }

/-- stageResultsLoading: copy, set isLoading at the index. -/
def stageResultsLoading (fresh : Nat) (state : PipelineRef) (index : Nat) : PipelineRef :=
  let newState := copyState fresh state
  { newState with
      stages := modifyIdx (fun s => { s with isLoading := true })
        index newState.stages }

/-- The dispatched actions.  The ten recognized action types are the ten
constructors carrying their creators' payloads; `unknown` stands for any
action whose type string is not a key of MAPPINGS. -/
inductive PipelineAction where
  | stageAdded
  | stageAddedAfter (index : Nat)
  | stageChanged (stage : String) (index : Nat)
  | stageCollapseToggled (index : Nat)
  | stageDeleted (index : Nat)
  | stageMoved (fromIndex toIndex : Nat)
  | stageOperatorSelected (index : Nat) (stageOperator : Option String)
      (isCommenting : Bool)
  | stageToggled (index : Nat)
  | stagePreviewUpdated (documents : List Doc) (index : Nat) (error : Option JsError)
      (isComplete : Bool)
  | loadingStageResults (index : Nat)
  | unknown (type : String)
  deriving DecidableEq

/-- The reducer: MAPPINGS[action.type] applied to the state, or the state
itself (same reference) when the type is not a key.  `fresh` is the identity
of the array allocated by copyState during this dispatch, `newId` the ObjectId
hex string generated by addStage and `nowMs` the Date().getTime() read by
AddAfterStage — the three nondeterministic allocations of the module, passed
in as parameters. -/
def reducer (ops : List OpDetails) (fresh : Nat) (newId : StageId) (nowMs : Nat)
    (state : PipelineRef) : PipelineAction → PipelineRef
  | PipelineAction.stageChanged value index => changeStage fresh state index value
  | PipelineAction.stageAdded => addStage fresh newId state
  | PipelineAction.stageAddedAfter index => AddAfterStage fresh nowMs state index
  | PipelineAction.stageDeleted index => deleteStage fresh state index
  | PipelineAction.stageMoved f t => moveStage fresh state f t
  | PipelineAction.stageOperatorSelected index op c => selectStageOperator ops fresh state index op c
  | PipelineAction.stageToggled index => toggleStage fresh state index
  | PipelineAction.stageCollapseToggled index => toggleStageCollapse fresh state index
  | PipelineAction.stagePreviewUpdated docs index e c => updateStagePreview fresh state index docs e c
  | PipelineAction.loadingStageResults index => stageResultsLoading fresh state index
  | PipelineAction.unknown _ => state

/-- The reducer branches that return the input state itself rather than a
copy: an unrecognized action type, a move whose source index equals its
destination index, and selecting the operator already stored at the index. -/
def isNoop (state : PipelineRef) : PipelineAction → Bool
  | PipelineAction.unknown _ => true
  | PipelineAction.stageMoved f t => f == t
  | PipelineAction.stageOperatorSelected index op _ => op == stageOperatorAt state index
  | _ => false

/- ----------------------------------------------------------------- -/
/- generatePipeline                                                   -/
/- ----------------------------------------------------------------- -/

/-- An element of a generated runnable pipeline: the frozen LIMIT constant
($limit: 20), the frozen LARGE_LIMIT constant ($limit: 100000), or the
executable form of a stage (stage.executor || generateStage(stage)). -/
inductive PipelineElem where
  | limitSmall
  | limitLarge
  | exec (c : CompiledStage)
  deriving DecidableEq

/-- LIMIT, the small safety limit ($limit: 20). -/
def LIMIT : PipelineElem := PipelineElem.limitSmall

/-- LARGE_LIMIT, the large safety limit ($limit: 100000). -/
def LARGE_LIMIT : PipelineElem := PipelineElem.limitLarge

/-- Stage operators that are required to be the first stage. -/
def REQUIRED_AS_FIRST_STAGE : List String :=
  ["$collStats", "$currentOp", "$indexStats", "$listLocalSessions", "$listSessions"]

/-- Ops that must scan the entire results before moving to the next stage. -/
def FULL_SCAN_OPS : List String := ["$group", "$bucket", "$bucketAuto"]

/-- The out stage operator. -/
def OUT : String := "$out"

/-- The count field of state.inputDocuments: either the string constant NA
(the count is unknown) or a number. -/
inductive JsCount where
  | na
  | num (n : Nat)
  deriving DecidableEq

/-- The slice of state.inputDocuments read by generatePipeline. -/
structure InputDocuments where
  count : JsCount
  deriving DecidableEq

/-- The slice of the aggregation store state read by generatePipeline and by
the execution path. -/
structure AggState where
  inputDocuments : InputDocuments
  sample : Bool
  pipeline : List Stage
  deriving DecidableEq

/-- count === NA. -/
def isNA : JsCount → Bool
  | JsCount.na => true
  | JsCount.num _ => false

/-- count > 100000.  In JS the comparison of the string NA against a number is
false (NaN comparison). -/
def countGt100000 : JsCount → Bool
  | JsCount.na => false
  | JsCount.num n => 100000 < n

/-- FULL_SCAN_OPS.includes(stage.stageOperator); a null operator is never a
member of the string list. -/
def fullScanOp (op : Option String) : Bool :=
  match op with
  | some s => FULL_SCAN_OPS.contains s
  | none => false

/-- REQUIRED_AS_FIRST_STAGE.includes(op); a null operator is never a member. -/
def requiredFirstOp (op : Option String) : Bool :=
  match op with
  | some s => REQUIRED_AS_FIRST_STAGE.contains s
  | none => false

/-- The guard deciding whether LARGE_LIMIT is pushed ahead of a stage:
count === NA || (count > 100000 && FULL_SCAN_OPS.includes(stage.stageOperator)
&& state.sample). -/
def largeLimitCond (state : AggState) (s : Stage) : Bool :=
  isNA state.inputDocuments.count
    || (countGt100000 state.inputDocuments.count && fullScanOp s.stageOperator
        && state.sample)

/-- stage.executor || generateStage(stage): the element pushed for a stage. -/
def stageElem (s : Stage) : PipelineElem :=
  PipelineElem.exec (s.executor.getD (generateStage s))

/-- The reduce in generatePipeline: for each stage at position i with
i <= index and isEnabled, optionally push LARGE_LIMIT, then push the stage's
executable form. -/
def buildStages (state : AggState) (index : Nat) : List PipelineElem :=
  state.pipeline.enum.foldl
    (fun results p =>
      if p.1 ≤ index ∧ p.2.isEnabled then
        (if largeLimitCond state p.2 then results ++ [LARGE_LIMIT] else results)
          ++ [stageElem p.2]
      else results)
    []

/-- The contribution of one enumerated stage to the generated list (used to
reason about the reduce). -/
def stageGroup (state : AggState) (index : Nat) (p : Nat × Stage) : List PipelineElem :=
  if p.1 ≤ index ∧ p.2.isEnabled then
    (if largeLimitCond state p.2 then [LARGE_LIMIT] else []) ++ [stageElem p.2]
  else []

/-- generatePipeline: build the stages up to the index, then append LIMIT when
the built list is nonempty and the operator of the last stage of the whole
pipeline is neither required-as-first nor $out.  Reading the last stage of an
empty pipeline would throw in JS; valid states are nonempty and the theorems
assume so. -/
def generatePipeline (state : AggState) (index : Nat) : List PipelineElem :=
  let stages := buildStages state index
  match state.pipeline.getLast? with
  | none => stages
  | some lastStage =>
    if 0 < stages.length ∧ requiredFirstOp lastStage.stageOperator = false
        ∧ lastStage.stageOperator ≠ some OUT then
      stages ++ [LIMIT]
    else stages

/- ----------------------------------------------------------------- -/
/- The execution path                                                 -/
/- ----------------------------------------------------------------- -/

/-- The direct effect of executeAggregation on the store state: the line
stage.executor = generateStage(stage) assigns the compiled form onto the stage
object held in state.pipeline[index], without going through a dispatch.  The
rest of the function only dispatches actions (handled by the reducer model)
and calls the data service. -/
def executeAggregationState (state : AggState) (index : Nat) : AggState :=
  { state with
      pipeline := modifyIdx
        (fun stage => { stage with executor := some (generateStage stage) })
        index state.pipeline }

/- ----------------------------------------------------------------- -/
/- Saved-items aggregator                                             -/
/- ----------------------------------------------------------------- -/

/-- The single action type of the saved-items store. -/
inductive ActionTypes where
  | itemsFetched
  deriving DecidableEq

/-- The kind tag of a normalized item. -/
inductive ItemType where
  | query
  | aggregation
  deriving DecidableEq

/-- The common normalized item shape. -/
structure Item where
  id : String
  lastModified : Nat
  name : String
  database : String
  collection : String
  type : ItemType
  deriving DecidableEq

/-- A favorited query as stored (interface Query). -/
structure Query where
  _id : String
  _name : String
  _ns : String
  _dateSaved : Nat
  deriving DecidableEq

/-- A saved aggregation as stored (interface Aggregation; the namespace field
is renamed ns because namespace is a Lean keyword). -/
structure Aggregation where
  id : String
  name : String
  ns : String
  lastModified : Nat
  deriving DecidableEq

/-- The dispatched ITEMS_FETCHED action. -/
structure ItemsAction where
  type : ActionTypes
  payload : List Item
  deriving DecidableEq

/-- Modelled from the spec: toNS (external library mongodb-ns) splits a
namespace string into its database (before the first dot) and collection
(after the first dot) parts. -/
def toNS (ns : String) : String × String :=
  match ns.splitOn (".") with
  | [] => ("", "")
  | d :: rest => (d, String.intercalate (".") rest)

/-- The map in getAggregationItems, applied to the list the storage resolved
with. -/
def getAggregationItems (aggregations : List Aggregation) : List Item :=
  aggregations.map (fun aggregation =>
    let dc := toNS aggregation.ns
    { id := aggregation.id, lastModified := aggregation.lastModified,
      name := aggregation.name, database := dc.1, collection := dc.2,
      type := ItemType.aggregation })

/-- The map in getQueryItems, applied to the list the storage resolved with. -/
def getQueryItems (queries : List Query) : List Item :=
  queries.map (fun query =>
    let dc := toNS query._ns
    { id := query._id, name := query._name, lastModified := query._dateSaved,
      database := dc.1, collection := dc.2, type := ItemType.query })

/-- The outcome of an awaited promise as observed by Promise.allSettled. -/
inductive SettledResult (α : Type) where
  | fulfilled (value : α)
  | rejected (reason : String)
  deriving DecidableEq

/-- getAggregationItems as a promise: a rejection of the underlying storage
read propagates; a fulfilled read resolves with the normalized items. -/
def getAggregationItemsResult (storage : SettledResult (List Aggregation)) :
    SettledResult (List Item) :=
  match storage with
  | SettledResult.fulfilled aggs => SettledResult.fulfilled (getAggregationItems aggs)
  | SettledResult.rejected e => SettledResult.rejected e

/-- getQueryItems as a promise, as above. -/
def getQueryItemsResult (storage : SettledResult (List Query)) :
    SettledResult (List Item) :=
  match storage with
  | SettledResult.fulfilled qs => SettledResult.fulfilled (getQueryItems qs)
  | SettledResult.rejected e => SettledResult.rejected e

/-- result.status === fulfilled ? result.value : []. -/
def settledValueOrEmpty : SettledResult (List Item) → List Item
  | SettledResult.fulfilled v => v
  | SettledResult.rejected _ => []

/-- fetchItems: await Promise.allSettled of the two loads, map each settled
result to its value or the empty list, flatten, and dispatch the result as an
ITEMS_FETCHED action.  The function is total: no rejection escapes. -/
def fetchItems (aggStorage : SettledResult (List Aggregation))
    (queryStorage : SettledResult (List Query)) : ItemsAction :=
  { type := ActionTypes.itemsFetched,
    payload :=
      (([getAggregationItemsResult aggStorage,
         getQueryItemsResult queryStorage]).map settledValueOrEmpty).flatten }

/- ----------------------------------------------------------------- -/
/- Helper lemmas                                                      -/
/- ----------------------------------------------------------------- -/

theorem modifyIdx_get (f : α → α) (i : Nat) (l : List α) :
    ∀ j, (modifyIdx f i l).get? j = if j = i then (l.get? j).map f else l.get? j := by
  induction l generalizing i with
  | nil => intro j; simp [modifyIdx]
  | cons a l ih =>
    intro j
    cases i with
    | zero =>
      cases j with
      | zero => simp [modifyIdx]
      | succ k => simp [modifyIdx]
    | succ n =>
      cases j with
      | zero => simp [modifyIdx]
      | succ k =>
        simp only [modifyIdx, List.get?_cons_succ, ih n k, Nat.succ_inj]

theorem modifyIdx_modifyIdx (f g : α → α) (i : Nat) (l : List α) :
    modifyIdx f i (modifyIdx g i l) = modifyIdx (fun a => f (g a)) i l := by
  induction l generalizing i with
  | nil => simp [modifyIdx]
  | cons a l ih =>
    cases i with
    | zero => simp [modifyIdx]
    | succ n => simp [modifyIdx, ih n]

theorem modifyIdx_congr_id (f : α → α) (h : ∀ a, f a = a) (i : Nat) (l : List α) :
    modifyIdx f i l = l := by
  induction l generalizing i with
  | nil => simp [modifyIdx]
  | cons a l ih =>
    cases i with
    | zero => simp [modifyIdx, h a]
    | succ n => simp [modifyIdx, ih n]

theorem spliceDelete_length (l : List α) :
    ∀ i, i < l.length → (spliceDelete l i).length = l.length - 1 := by
  induction l with
  | nil => intro i h; simp at h
  | cons a l ih =>
    intro i h
    cases i with
    | zero => simp [spliceDelete]
    | succ n =>
      have hn : n < l.length := Nat.lt_of_succ_lt_succ h
      simp only [spliceDelete, List.length_cons, ih n hn]
      omega

theorem spliceDelete_get_lt (l : List α) :
    ∀ i j, j < i → (spliceDelete l i).get? j = l.get? j := by
  induction l with
  | nil => intro i j _; simp [spliceDelete]
  | cons a l ih =>
    intro i j hj
    cases i with
    | zero => omega
    | succ n =>
      cases j with
      | zero => simp [spliceDelete]
      | succ k =>
        simp only [spliceDelete, List.get?_cons_succ]
        exact ih n k (Nat.lt_of_succ_lt_succ hj)

theorem spliceDelete_get_ge (l : List α) :
    ∀ i j, i ≤ j → (spliceDelete l i).get? j = l.get? (j + 1) := by
  induction l with
  | nil => intro i j _; simp [spliceDelete]
  | cons a l ih =>
    intro i j hj
    cases i with
    | zero => simp [spliceDelete]
    | succ n =>
      cases j with
      | zero => omega
      | succ k =>
        simp only [spliceDelete, List.get?_cons_succ]
        exact ih n k (Nat.le_of_succ_le_succ hj)

theorem foldl_stageGroup (state : AggState) (index : Nat) :
    ∀ (l : List (Nat × Stage)) (init : List PipelineElem),
      l.foldl
        (fun results p =>
          if p.1 ≤ index ∧ p.2.isEnabled then
            (if largeLimitCond state p.2 then results ++ [LARGE_LIMIT] else results)
              ++ [stageElem p.2]
          else results)
        init
      = init ++ l.flatMap (stageGroup state index) := by
  intro l
  induction l with
  | nil => intro init; simp
  | cons p ps ih =>
    intro init
    rw [List.foldl_cons, ih, List.flatMap_cons]
    unfold stageGroup
    by_cases h1 : p.1 ≤ index ∧ p.2.isEnabled = true
    · by_cases h2 : largeLimitCond state p.2 = true
      · simp [h1.1, h1.2, h2]
      · simp [h1.1, h1.2, h2]
    · rw [if_neg h1, if_neg h1]
      simp

theorem buildStages_eq_flatMap (state : AggState) (index : Nat) :
    buildStages state index = state.pipeline.enum.flatMap (stageGroup state index) := by
  unfold buildStages
  rw [foldl_stageGroup]
  simp

theorem stageGroup_shape (state : AggState) (index : Nat) (p : Nat × Stage) :
    stageGroup state index p = []
    ∨ stageGroup state index p = [stageElem p.2]
    ∨ (stageGroup state index p = [PipelineElem.limitLarge, stageElem p.2]
        ∧ p.1 ≤ index ∧ p.2.isEnabled = true ∧ largeLimitCond state p.2 = true) := by
  unfold stageGroup
  by_cases h1 : p.1 ≤ index ∧ p.2.isEnabled = true
  · by_cases h2 : largeLimitCond state p.2 = true
    · right; right
      refine ⟨?h, h1.1, h1.2, h2⟩
      simp [h1.1, h1.2, h2, LARGE_LIMIT]
    · right; left
      simp [h1.1, h1.2, h2]
  · left
    rw [if_neg h1]

theorem stageElem_ne_limitSmall (s : Stage) : stageElem s ≠ PipelineElem.limitSmall := by
  simp [stageElem]

theorem mem_buildStages_ne_limitSmall (state : AggState) (index : Nat) :
    ∀ e ∈ buildStages state index, e ≠ PipelineElem.limitSmall := by
  intro e he
  rw [buildStages_eq_flatMap, List.mem_flatMap] at he
  obtain ⟨p, _, hep⟩ := he
  rcases stageGroup_shape state index p with h | h | h
  · rw [h] at hep
    simp at hep
  · rw [h] at hep
    simp only [List.mem_singleton] at hep
    subst hep
    exact stageElem_ne_limitSmall p.2
  · rw [h.1] at hep
    simp only [List.mem_cons, List.mem_singleton, List.not_mem_nil, or_false] at hep
    rcases hep with hep | hep
    · subst hep; simp
    · subst hep; exact stageElem_ne_limitSmall p.2

/-- A group is well-shaped for the large-limit analysis when it is empty, a
single executable element, or LARGE_LIMIT followed by the executable form of
an enumerated stage that is included, enabled and satisfies the guard. -/
def LargeOkGroup (state : AggState) (index : Nat) (g : List PipelineElem) : Prop :=
  g = [] ∨ (∃ c, g = [PipelineElem.exec c])
    ∨ (∃ p, p ∈ state.pipeline.enum ∧ p.1 ≤ index ∧ p.2.isEnabled = true
        ∧ largeLimitCond state p.2 = true ∧ g = [PipelineElem.limitLarge, stageElem p.2])

theorem flatten_largeLimit_followed (state : AggState) (index : Nat) :
    ∀ (gs : List (List PipelineElem)),
      (∀ g ∈ gs, LargeOkGroup state index g) →
      ∀ j, gs.flatten.get? j = some PipelineElem.limitLarge →
        ∃ p, p ∈ state.pipeline.enum ∧ p.1 ≤ index ∧ p.2.isEnabled = true
          ∧ largeLimitCond state p.2 = true
          ∧ gs.flatten.get? (j + 1) = some (stageElem p.2) := by
  intro gs
  induction gs with
  | nil =>
    intro _ j hj
    simp at hj
  | cons g gs ih =>
    intro hg j hj
    have hgs : ∀ g2 ∈ gs, LargeOkGroup state index g2 :=
      fun g2 hg2 => hg g2 (List.mem_cons_of_mem _ hg2)
    rcases hg g (List.mem_cons_self _ _) with h | ⟨c, h⟩ | ⟨p, hp1, hp2, hp3, hp4, h⟩
    · subst h
      simp only [List.flatten_cons, List.nil_append] at hj ⊢
      exact ih hgs j hj
    · subst h
      simp only [List.flatten_cons, List.singleton_append] at hj ⊢
      cases j with
      | zero => simp at hj
      | succ k =>
        rw [List.get?_cons_succ] at hj
        obtain ⟨q, a1, a2, a3, a4, a5⟩ := ih hgs k hj
        exact ⟨q, a1, a2, a3, a4, by rw [List.get?_cons_succ]; exact a5⟩
    · subst h
      simp only [List.flatten_cons, List.cons_append, List.singleton_append,
        List.nil_append] at hj ⊢
      cases j with
      | zero =>
        refine ⟨p, hp1, hp2, hp3, hp4, ?_⟩
        simp
      | succ k =>
        rw [List.get?_cons_succ] at hj
        cases k with
        | zero =>
          rw [List.get?_cons_zero] at hj
          exact absurd (Option.some.inj hj) (by simp [stageElem])
        | succ m =>
          rw [List.get?_cons_succ] at hj
          obtain ⟨q, a1, a2, a3, a4, a5⟩ := ih hgs m hj
          refine ⟨q, a1, a2, a3, a4, ?_⟩
          rw [List.get?_cons_succ, List.get?_cons_succ]
          exact a5

theorem copyState_ref (fresh : Nat) (st : PipelineRef) :
    (copyState fresh st).ref = fresh := rfl

theorem copyState_stages (fresh : Nat) (st : PipelineRef) :
    (copyState fresh st).stages = st.stages := by
  simp [copyState]

/- ----------------------------------------------------------------- -/
/- Claim theorems                                                     -/
/- ----------------------------------------------------------------- -/

/-- Claim C4 (confirmed): for every pipeline state and every stage-moved
action whose fromIndex equals its toIndex, the reducer returns the same
sequence reference unchanged: the result is the input state itself, array
identity included. -/
theorem moveStage_same_index_returns_input (ops : List OpDetails) (fresh : Nat)
    (newId : StageId) (nowMs : Nat) (st : PipelineRef) (i : Nat) :
    reducer ops fresh newId nowMs st (PipelineAction.stageMoved i i) = st := by
  simp [reducer, moveStage]

/-- Claim C5 (confirmed): a stage-operator-selected action whose operator name
equals the operator already stored at its valid target index returns the
identical sequence reference: the reducer result is the input state itself and
no copy is made. -/
theorem selectStageOperator_same_returns_input (ops : List OpDetails) (fresh : Nat)
    (newId : StageId) (nowMs : Nat) (st : PipelineRef) (i : Nat) (op : Option String)
    (c : Bool) (hi : i < st.stages.length) (hop : op = stageOperatorAt st i) :
    reducer ops fresh newId nowMs st (PipelineAction.stageOperatorSelected i op c) = st := by
  subst hop
  simp [reducer, selectStageOperator]

/-- Concrete instance of the C5 theorem: reselecting the stored operator
$match at index 0 of a one-stage pipeline returns the input state itself. -/
theorem selectStageOperator_same_returns_input_witness :
    reducer [] 7 (StageId.hexStr ("x")) 0
        { ref := 3, stages := [{ id := StageId.hexStr ("a"),
                                 stageOperator := some ("$match") }] }
        (PipelineAction.stageOperatorSelected 0 (some ("$match")) false)
      = { ref := 3, stages := [{ id := StageId.hexStr ("a"),
                                 stageOperator := some ("$match") }] } :=
  selectStageOperator_same_returns_input [] 7 (StageId.hexStr ("x")) 0 _ 0 _ false
    (by decide) (by decide)

/-- Claim C6 (confirmed): deleting the stage at a valid index i of a pipeline
of length n yields a sequence of length n - 1 in which every stage before i
keeps its position and every stage after i moves down by exactly one, so the
remaining stages keep their original relative order. -/
theorem deleteStage_removes_one_preserves_order (ops : List OpDetails) (fresh : Nat)
    (newId : StageId) (nowMs : Nat) (st : PipelineRef) (i : Nat)
    (hi : i < st.stages.length) :
    (reducer ops fresh newId nowMs st (PipelineAction.stageDeleted i)).stages.length
        = st.stages.length - 1
    ∧ (∀ j, j < i →
        (reducer ops fresh newId nowMs st (PipelineAction.stageDeleted i)).stages.get? j
          = st.stages.get? j)
    ∧ (∀ j, i ≤ j →
        (reducer ops fresh newId nowMs st (PipelineAction.stageDeleted i)).stages.get? j
          = st.stages.get? (j + 1)) := by
  have hstages : (reducer ops fresh newId nowMs st (PipelineAction.stageDeleted i)).stages
      = spliceDelete st.stages i := by
    simp [reducer, deleteStage, copyState]
  refine ⟨?_, ?_, ?_⟩
  · rw [hstages]
    exact spliceDelete_length st.stages i hi
  · intro j hj
    rw [hstages]
    exact spliceDelete_get_lt st.stages i j hj
  · intro j hj
    rw [hstages]
    exact spliceDelete_get_ge st.stages i j hj

/-- Concrete instance of the C6 theorem: deleting index 0 of a two-stage
pipeline leaves one stage, and the former stage 1 is now stage 0. -/
theorem deleteStage_removes_one_preserves_order_witness :
    (reducer [] 7 (StageId.hexStr ("x")) 0
        { ref := 0, stages := [{ id := StageId.hexStr ("a") },
                               { id := StageId.hexStr ("b") }] }
        (PipelineAction.stageDeleted 0)).stages.length = 2 - 1
    ∧ (reducer [] 7 (StageId.hexStr ("x")) 0
        { ref := 0, stages := [{ id := StageId.hexStr ("a") },
                               { id := StageId.hexStr ("b") }] }
        (PipelineAction.stageDeleted 0)).stages.get? 0
      = some { id := StageId.hexStr ("b") } :=
  ⟨(deleteStage_removes_one_preserves_order [] 7 (StageId.hexStr ("x")) 0 _ 0
      (by decide)).1,
   by
    rw [(deleteStage_removes_one_preserves_order [] 7 (StageId.hexStr ("x")) 0 _ 0
      (by decide)).2.2 0 (by decide)]
    decide⟩

/-- Claim C7 as stated is false at this input: STAGE_MOVED is one of the ten
recognized action types, yet moving stage 0 to position 0 returns the input
array (identity 0) instead of a freshly copied sequence (which would carry
the newly allocated identity 1). -/
theorem reducer_recognized_not_always_fresh :
    reducer [] 1 (StageId.hexStr ("b")) 0
        { ref := 0, stages := [{ id := StageId.hexStr ("a") }] }
        (PipelineAction.stageMoved 0 0)
      = { ref := 0, stages := [{ id := StageId.hexStr ("a") }] }
    ∧ (0 : Nat) ≠ 1 := by
  constructor
  · rfl
  · decide

/-- Claim C7 (corrected): the reducer never mutates its input (the embedding
is pure and all updates are applied to the copy); it returns the input
reference exactly on the no-op branches — an unrecognized action type, a move
whose fromIndex equals its toIndex, and reselecting the operator already
stored at the index — and on every other recognized action it returns the
sequence freshly copied by copyState, carrying the newly allocated array
identity. -/
theorem reducer_reference_behavior (ops : List OpDetails) (fresh : Nat)
    (newId : StageId) (nowMs : Nat) (st : PipelineRef) (a : PipelineAction) :
    (isNoop st a = true → reducer ops fresh newId nowMs st a = st)
    ∧ (isNoop st a = false → (reducer ops fresh newId nowMs st a).ref = fresh) := by
  constructor
  · intro h
    cases a with
    | unknown t => rfl
    | stageMoved f t =>
      have hft : f = t := by simpa [isNoop] using h
      subst hft
      simp [reducer, moveStage]
    | stageOperatorSelected i op c =>
      have hop : op = stageOperatorAt st i := by simpa [isNoop] using h
      subst hop
      simp [reducer, selectStageOperator]
    | stageAdded => simp [isNoop] at h
    | stageAddedAfter i => simp [isNoop] at h
    | stageChanged v i => simp [isNoop] at h
    | stageCollapseToggled i => simp [isNoop] at h
    | stageDeleted i => simp [isNoop] at h
    | stageToggled i => simp [isNoop] at h
    | stagePreviewUpdated d i e c => simp [isNoop] at h
    | loadingStageResults i => simp [isNoop] at h
  · intro h
    cases a with
    | unknown t => simp [isNoop] at h
    | stageMoved f t =>
      have hft : ¬ f = t := by simpa [isNoop] using h
      simp [reducer, moveStage, hft, copyState]
    | stageOperatorSelected i op c =>
      have hop : ¬ op = stageOperatorAt st i := by simpa [isNoop] using h
      simp [reducer, selectStageOperator, hop, copyState]
    | stageAdded => simp [reducer, addStage, copyState]
    | stageAddedAfter i => simp [reducer, AddAfterStage, copyState]
    | stageChanged v i => simp [reducer, changeStage, copyState]
    | stageCollapseToggled i => simp [reducer, toggleStageCollapse, copyState]
    | stageDeleted i => simp [reducer, deleteStage, copyState]
    | stageToggled i => simp [reducer, toggleStage, copyState]
    | stagePreviewUpdated d i e c => simp [reducer, updateStagePreview, copyState]
    | loadingStageResults i => simp [reducer, stageResultsLoading, copyState]

/-- Concrete instance of the C7 theorem: an unrecognized action returns the
input state (identity 2) itself, and a recognized stage-toggled action
returns the sequence carrying the freshly allocated identity 5. -/
theorem reducer_reference_behavior_witness :
    reducer [] 5 (StageId.hexStr ("n")) 0
        { ref := 2, stages := [{ id := StageId.hexStr ("a") }] }
        (PipelineAction.unknown ("other"))
      = { ref := 2, stages := [{ id := StageId.hexStr ("a") }] }
    ∧ (reducer [] 5 (StageId.hexStr ("n")) 0
        { ref := 2, stages := [{ id := StageId.hexStr ("a") }] }
        (PipelineAction.stageToggled 0)).ref = 5 :=
  ⟨(reducer_reference_behavior [] 5 (StageId.hexStr ("n")) 0 _ _).1 (by decide),
   (reducer_reference_behavior [] 5 (StageId.hexStr ("n")) 0 _ _).2 (by decide)⟩

/-- Claim C8 (confirmed): a stage-preview-updated action carrying a non-null
error sets, at its valid target index, the stage error field to the error
message, empties previewDocuments and clears isLoading (isComplete is copied
from the action), and leaves every stage other than the target unchanged. -/
theorem updateStagePreview_error_isolated (ops : List OpDetails) (fresh : Nat)
    (newId : StageId) (nowMs : Nat) (st : PipelineRef) (i : Nat) (docs : List Doc)
    (e : JsError) (c : Bool) (hi : i < st.stages.length) :
    ((reducer ops fresh newId nowMs st
        (PipelineAction.stagePreviewUpdated docs i (some e) c)).stages.get? i
      = (st.stages.get? i).map (fun s =>
          { s with previewDocuments := [], error := some e.message,
                   isLoading := false, isComplete := c }))
    ∧ ∀ j, j ≠ i →
        (reducer ops fresh newId nowMs st
          (PipelineAction.stagePreviewUpdated docs i (some e) c)).stages.get? j
          = st.stages.get? j := by
  have hstages : (reducer ops fresh newId nowMs st
      (PipelineAction.stagePreviewUpdated docs i (some e) c)).stages
      = modifyIdx (fun s =>
          { s with previewDocuments := [], error := some e.message,
                   isLoading := false, isComplete := c }) i st.stages := by
    simp [reducer, updateStagePreview, copyState]
  constructor
  · rw [hstages, modifyIdx_get]
    simp
  · intro j hj
    rw [hstages, modifyIdx_get]
    simp [hj]

/-- Concrete instance of the C8 theorem on a two-stage pipeline: the error
message lands in stage 0 and stage 1 is untouched. -/
theorem updateStagePreview_error_isolated_witness :
    ((reducer [] 9 (StageId.hexStr ("x")) 0
        { ref := 0, stages := [{ id := StageId.hexStr ("a") },
                               { id := StageId.hexStr ("b") }] }
        (PipelineAction.stagePreviewUpdated [] 0 (some { message := "boom" }) false)).stages.get? 0
      = some { id := StageId.hexStr ("a"), previewDocuments := [],
               error := some ("boom"), isLoading := false, isComplete := false })
    ∧ ((reducer [] 9 (StageId.hexStr ("x")) 0
        { ref := 0, stages := [{ id := StageId.hexStr ("a") },
                               { id := StageId.hexStr ("b") }] }
        (PipelineAction.stagePreviewUpdated [] 0 (some { message := "boom" }) false)).stages.get? 1
      = some { id := StageId.hexStr ("b") }) :=
  ⟨by
    rw [(updateStagePreview_error_isolated [] 9 (StageId.hexStr ("x")) 0 _ 0 []
      { message := "boom" } false (by decide)).1]
    decide,
   by
    rw [(updateStagePreview_error_isolated [] 9 (StageId.hexStr ("x")) 0 _ 0 []
      { message := "boom" } false (by decide)).2 1 (by decide)]
    decide⟩

/-- Claim C10 (confirmed): at a valid index i, stage-toggled flips exactly the
isEnabled flag of stage i (every other field and every other stage is
unchanged), stage-collapse-toggled likewise flips exactly isExpanded, and
applying either action twice restores the original stage sequence value. -/
theorem toggle_actions_involutive (ops : List OpDetails) (f1 f2 : Nat)
    (n1 n2 : StageId) (t1 t2 : Nat) (st : PipelineRef) (i : Nat)
    (hi : i < st.stages.length) :
    ((reducer ops f2 n2 t2 (reducer ops f1 n1 t1 st (PipelineAction.stageToggled i))
        (PipelineAction.stageToggled i)).stages = st.stages)
    ∧ (∀ j, (reducer ops f1 n1 t1 st (PipelineAction.stageToggled i)).stages.get? j
        = if j = i then
            (st.stages.get? j).map (fun s => { s with isEnabled := !s.isEnabled })
          else st.stages.get? j)
    ∧ ((reducer ops f2 n2 t2
          (reducer ops f1 n1 t1 st (PipelineAction.stageCollapseToggled i))
          (PipelineAction.stageCollapseToggled i)).stages = st.stages)
    ∧ (∀ j, (reducer ops f1 n1 t1 st (PipelineAction.stageCollapseToggled i)).stages.get? j
        = if j = i then
            (st.stages.get? j).map (fun s => { s with isExpanded := !s.isExpanded })
          else st.stages.get? j) := by
  have hT : ∀ (fr : Nat) (nid : StageId) (nms : Nat) (s2 : PipelineRef),
      (reducer ops fr nid nms s2 (PipelineAction.stageToggled i)).stages
        = modifyIdx (fun s => { s with isEnabled := !s.isEnabled }) i s2.stages := by
    intro fr nid nms s2
    simp [reducer, toggleStage, copyState]
  have hC : ∀ (fr : Nat) (nid : StageId) (nms : Nat) (s2 : PipelineRef),
      (reducer ops fr nid nms s2 (PipelineAction.stageCollapseToggled i)).stages
        = modifyIdx (fun s => { s with isExpanded := !s.isExpanded }) i s2.stages := by
    intro fr nid nms s2
    simp [reducer, toggleStageCollapse, copyState]
  have hinvT : ∀ s : Stage,
      (fun s => { s with isEnabled := !s.isEnabled })
        ((fun s => { s with isEnabled := !s.isEnabled }) s) = s := by
    intro s
    simp
  have hinvC : ∀ s : Stage,
      (fun s => { s with isExpanded := !s.isExpanded })
        ((fun s => { s with isExpanded := !s.isExpanded }) s) = s := by
    intro s
    simp
  refine ⟨?_, ?_, ?_, ?_⟩
  · rw [hT, hT, modifyIdx_modifyIdx, modifyIdx_congr_id _ hinvT]
  · intro j
    rw [hT, modifyIdx_get]
  · rw [hC, hC, modifyIdx_modifyIdx, modifyIdx_congr_id _ hinvC]
  · intro j
    rw [hC, modifyIdx_get]

/-- Concrete instance of the C10 theorem: toggling stage 0 twice restores the
one-stage sequence, and a single toggle disables the (initially enabled)
stage. -/
theorem toggle_actions_involutive_witness :
    ((reducer [] 2 (StageId.hexStr ("y")) 0
        (reducer [] 1 (StageId.hexStr ("x")) 0
          { ref := 0, stages := [{ id := StageId.hexStr ("a") }] }
          (PipelineAction.stageToggled 0))
        (PipelineAction.stageToggled 0)).stages
      = [{ id := StageId.hexStr ("a") }])
    ∧ ((reducer [] 1 (StageId.hexStr ("x")) 0
        { ref := 0, stages := [{ id := StageId.hexStr ("a") }] }
        (PipelineAction.stageToggled 0)).stages.get? 0
      = some { id := StageId.hexStr ("a"), isEnabled := false }) :=
  ⟨(toggle_actions_involutive [] 1 2 (StageId.hexStr ("x")) (StageId.hexStr ("y")) 0 0 _ 0
      (by decide)).1,
   by
    rw [(toggle_actions_involutive [] 1 2 (StageId.hexStr ("x")) (StageId.hexStr ("y")) 0 0 _ 0
      (by decide)).2.1 0]
    decide⟩

/-- Claim C9 as stated is false at this input: executeAggregation assigns the
compiled executor onto the stage object held in the store pipeline without any
dispatch, so the state after the call differs from the snapshot before it. -/
theorem executeAggregation_mutates_state :
    executeAggregationState
        { inputDocuments := { count := JsCount.num 1 }, sample := false,
          pipeline := [{ id := StageId.hexStr ("a"),
                         stageOperator := some ("$match") }] } 0
      ≠ { inputDocuments := { count := JsCount.num 1 }, sample := false,
          pipeline := [{ id := StageId.hexStr ("a"),
                         stageOperator := some ("$match") }] } := by
  decide

/-- Claim C9 (corrected): the only modification the execution path makes to
the store state outside a dispatched action is the executor cache write in
executeAggregation: at a valid index it rewrites exactly the executor field
of that stage to the compiled form of the stage, leaving the input-documents
slice, the sample flag and every other stage unchanged. -/
theorem executeAggregationState_only_caches_executor (st : AggState) (i : Nat)
    (hi : i < st.pipeline.length) :
    (executeAggregationState st i).inputDocuments = st.inputDocuments
    ∧ (executeAggregationState st i).sample = st.sample
    ∧ ((executeAggregationState st i).pipeline.get? i
        = (st.pipeline.get? i).map (fun s => { s with executor := some (generateStage s) }))
    ∧ ∀ j, j ≠ i →
        (executeAggregationState st i).pipeline.get? j = st.pipeline.get? j := by
  have hpipe : (executeAggregationState st i).pipeline
      = modifyIdx (fun s => { s with executor := some (generateStage s) }) i st.pipeline :=
    rfl
  refine ⟨rfl, rfl, ?_, ?_⟩
  · rw [hpipe, modifyIdx_get]
    simp
  · intro j hj
    rw [hpipe, modifyIdx_get]
    simp [hj]

/-- Concrete instance of the C9 theorem on a two-stage state: stage 0 gets
its executor cached and stage 1 is untouched. -/
theorem executeAggregationState_only_caches_executor_witness :
    ((executeAggregationState
        { inputDocuments := { count := JsCount.num 1 }, sample := false,
          pipeline := [{ id := StageId.hexStr ("a"), stageOperator := some ("$match") },
                       { id := StageId.hexStr ("b") }] } 0).pipeline.get? 0
      = some { id := StageId.hexStr ("a"), stageOperator := some ("$match"),
               executor := some { stageOperator := some ("$match"), body := "" } })
    ∧ ((executeAggregationState
        { inputDocuments := { count := JsCount.num 1 }, sample := false,
          pipeline := [{ id := StageId.hexStr ("a"), stageOperator := some ("$match") },
                       { id := StageId.hexStr ("b") }] } 0).pipeline.get? 1
      = some { id := StageId.hexStr ("b") }) :=
  ⟨by
    rw [(executeAggregationState_only_caches_executor _ 0 (by decide)).2.2.1]
    decide,
   by
    rw [(executeAggregationState_only_caches_executor _ 0 (by decide)).2.2.2 1 (by decide)]
    decide⟩

/-- Claim C1 as stated is false at this input: the pipeline's only stage is
disabled, so the generated pipeline is empty and no small limit is appended,
even though the last stage operator ($match) is neither a
required-as-first-stage operator nor $out. -/
theorem generatePipeline_trailing_limit_needs_stages :
    ¬ (((generatePipeline
          { inputDocuments := { count := JsCount.num 5 }, sample := false,
            pipeline := [{ id := StageId.hexStr ("a"),
                           stageOperator := some ("$match"),
                           isEnabled := false }] } 0).getLast? = some LIMIT)
        ↔ (requiredFirstOp (some ("$match")) = false
            ∧ some ("$match") ≠ some OUT)) := by
  decide

/-- Claim C1 (corrected): for a nonempty pipeline, the generated pipeline has
the small safety limit as its last element exactly when the built stage list
is nonempty and the operator of the pipeline's last stage is neither a
required-as-first-stage operator nor $out.  (The claim as stated omits the
requirement that at least one stage up to the index is enabled, i.e. that the
built stage list is nonempty.) -/
theorem generatePipeline_trailing_limit (st : AggState) (index : Nat)
    (h : st.pipeline ≠ []) :
    (generatePipeline st index).getLast? = some LIMIT ↔
      (buildStages st index ≠ []
        ∧ requiredFirstOp (st.pipeline.getLast h).stageOperator = false
        ∧ (st.pipeline.getLast h).stageOperator ≠ some OUT) := by
  have hmatch : generatePipeline st index =
      (if 0 < (buildStages st index).length
          ∧ requiredFirstOp (st.pipeline.getLast h).stageOperator = false
          ∧ (st.pipeline.getLast h).stageOperator ≠ some OUT then
        buildStages st index ++ [LIMIT]
      else buildStages st index) := by
    unfold generatePipeline
    rw [List.getLast?_eq_getLast st.pipeline h]
  rw [hmatch]
  by_cases hc : 0 < (buildStages st index).length
      ∧ requiredFirstOp (st.pipeline.getLast h).stageOperator = false
      ∧ (st.pipeline.getLast h).stageOperator ≠ some OUT
  · rw [if_pos hc, List.getLast?_concat]
    constructor
    · intro _
      exact ⟨List.length_pos.mp hc.1, hc.2.1, hc.2.2⟩
    · intro _
      rfl
  · rw [if_neg hc]
    constructor
    · intro hlast
      by_cases hne : buildStages st index = []
      · rw [hne] at hlast
        simp at hlast
      · rw [List.getLast?_eq_getLast _ hne] at hlast
        have hmem := List.getLast_mem hne
        have hnl := mem_buildStages_ne_limitSmall st index _ hmem
        rw [Option.some.injEq] at hlast
        exact absurd hlast hnl
    · intro hrhs
      exact absurd ⟨List.length_pos.mpr hrhs.1, hrhs.2.1, hrhs.2.2⟩ hc

/-- Concrete instance of the C1 theorem: a single enabled $match stage with a
small known count generates exactly its executable form followed by the small
limit. -/
theorem generatePipeline_trailing_limit_witness :
    (generatePipeline
        { inputDocuments := { count := JsCount.num 5 }, sample := false,
          pipeline := [{ id := StageId.hexStr ("a"),
                         stageOperator := some ("$match") }] } 0).getLast?
      = some LIMIT :=
  (generatePipeline_trailing_limit _ 0 (by decide)).mpr (by decide)

/-- Claim C2 as stated is false at this input: the document count is unknown
(NA), so the large limit is inserted ahead of the enabled $match stage even
though $match is not a full-scan operator. -/
theorem generatePipeline_largeLimit_non_fullscan :
    PipelineElem.limitLarge ∈ generatePipeline
        { inputDocuments := { count := JsCount.na }, sample := false,
          pipeline := [{ id := StageId.hexStr ("a"),
                         stageOperator := some ("$match") }] } 0
    ∧ fullScanOp (some ("$match")) = false := by
  decide

/-- Claim C2 (corrected): every occurrence of the large safety limit in a
generated pipeline sits immediately ahead of the executable form of a stage
that is included (its position is at most the index), enabled, and satisfies
the code guard: the document count is unknown (NA), or the count exceeds
100000 and the stage operator is a full-scan operator and sample mode is on.
(The claim as stated demands a full-scan operator in all cases; with an
unknown count the limit is inserted ahead of every enabled stage, and the
over-threshold branch additionally requires the sample flag.) -/
theorem generatePipeline_largeLimit_placement (st : AggState) (index j : Nat)
    (h : (generatePipeline st index).get? j = some LARGE_LIMIT) :
    ∃ p, p ∈ st.pipeline.enum ∧ p.1 ≤ index ∧ p.2.isEnabled = true
      ∧ largeLimitCond st p.2 = true
      ∧ (generatePipeline st index).get? (j + 1) = some (stageElem p.2) := by
  have hbase : ∀ k, (buildStages st index).get? k = some PipelineElem.limitLarge →
      ∃ p, p ∈ st.pipeline.enum ∧ p.1 ≤ index ∧ p.2.isEnabled = true
        ∧ largeLimitCond st p.2 = true
        ∧ (buildStages st index).get? (k + 1) = some (stageElem p.2) := by
    have hflat : buildStages st index
        = (st.pipeline.enum.map (stageGroup st index)).flatten := by
      rw [buildStages_eq_flatMap]
      rfl
    rw [hflat]
    refine flatten_largeLimit_followed st index _ ?_
    intro g hg
    rw [List.mem_map] at hg
    obtain ⟨p, hpmem, hpg⟩ := hg
    subst hpg
    rcases stageGroup_shape st index p with hs | hs | hs
    · exact Or.inl hs
    · exact Or.inr (Or.inl ⟨p.2.executor.getD (generateStage p.2), hs⟩)
    · exact Or.inr (Or.inr ⟨p, hpmem, hs.2.1, hs.2.2.1, hs.2.2.2, hs.1⟩)
  rcases hgen : st.pipeline.getLast? with _ | lastStage
  · have hgp : generatePipeline st index = buildStages st index := by
      unfold generatePipeline
      rw [hgen]
    rw [hgp] at h ⊢
    exact hbase j h
  · have hif : generatePipeline st index =
        (if 0 < (buildStages st index).length
            ∧ requiredFirstOp lastStage.stageOperator = false
            ∧ lastStage.stageOperator ≠ some OUT then
          buildStages st index ++ [LIMIT]
        else buildStages st index) := by
      unfold generatePipeline
      rw [hgen]
    by_cases hc : 0 < (buildStages st index).length
        ∧ requiredFirstOp lastStage.stageOperator = false
        ∧ lastStage.stageOperator ≠ some OUT
    · have hgp : generatePipeline st index = buildStages st index ++ [LIMIT] := by
        rw [hif, if_pos hc]
      rw [hgp] at h ⊢
      have hjlt : j < (buildStages st index).length := by
        by_contra hge
        push_neg at hge
        rw [List.get?_append_right hge] at h
        rcases hd : j - (buildStages st index).length with _ | m
        · rw [hd] at h
          simp [LIMIT, LARGE_LIMIT] at h
        · rw [hd] at h
          simp at h
      rw [List.get?_append hjlt] at h
      obtain ⟨p, a1, a2, a3, a4, a5⟩ := hbase j h
      have hj1 : j + 1 < (buildStages st index).length := (List.get?_eq_some.mp a5).1
      refine ⟨p, a1, a2, a3, a4, ?_⟩
      rw [List.get?_append hj1]
      exact a5
    · have hgp : generatePipeline st index = buildStages st index := by
        rw [hif, if_neg hc]
      rw [hgp] at h ⊢
      exact hbase j h

/-- Concrete instance of the C2 theorem: with an unknown count and one
enabled $match stage, the large limit at position 0 is immediately followed
by the executable form of that (enabled, guard-satisfying) stage. -/
theorem generatePipeline_largeLimit_placement_witness :
    (generatePipeline
        { inputDocuments := { count := JsCount.na }, sample := false,
          pipeline := [{ id := StageId.hexStr ("a"),
                         stageOperator := some ("$match") }] } 0).get? 0
      = some LARGE_LIMIT
    ∧ ∃ p, p ∈ (AggState.pipeline
          { inputDocuments := { count := JsCount.na }, sample := false,
            pipeline := [{ id := StageId.hexStr ("a"),
                           stageOperator := some ("$match") }] }).enum
        ∧ p.1 ≤ 0 ∧ p.2.isEnabled = true
        ∧ largeLimitCond
            { inputDocuments := { count := JsCount.na }, sample := false,
              pipeline := [{ id := StageId.hexStr ("a"),
                             stageOperator := some ("$match") }] } p.2 = true
        ∧ (generatePipeline
            { inputDocuments := { count := JsCount.na }, sample := false,
              pipeline := [{ id := StageId.hexStr ("a"),
                             stageOperator := some ("$match") }] } 0).get? (0 + 1)
          = some (stageElem p.2) :=
  ⟨by decide, generatePipeline_largeLimit_placement _ 0 0 (by decide)⟩

/-- Claim C3 (confirmed): when exactly one storage back-end rejects, the
dispatched items-fetched payload is exactly the successful source's
normalized items; when both fulfil it is the concatenation of both sources'
normalized items; when both reject it is the empty list; and in every case an
items-fetched action is dispatched, so a rejection is never propagated as an
error. -/
theorem fetchItems_partial_failure (aggs : List Aggregation) (qs : List Query)
    (e1 e2 : String) :
    ((fetchItems (SettledResult.fulfilled aggs) (SettledResult.rejected e2)).payload
        = getAggregationItems aggs)
    ∧ ((fetchItems (SettledResult.rejected e1) (SettledResult.fulfilled qs)).payload
        = getQueryItems qs)
    ∧ ((fetchItems (SettledResult.fulfilled aggs) (SettledResult.fulfilled qs)).payload
        = getAggregationItems aggs ++ getQueryItems qs)
    ∧ ((fetchItems (SettledResult.rejected e1) (SettledResult.rejected e2)).payload = [])
    ∧ ∀ (r1 : SettledResult (List Aggregation)) (r2 : SettledResult (List Query)),
        (fetchItems r1 r2).type = ActionTypes.itemsFetched := by
  refine ⟨?_, ?_, ?_, ?_, ?_⟩
  · simp [fetchItems, getAggregationItemsResult, getQueryItemsResult, settledValueOrEmpty]
  · simp [fetchItems, getAggregationItemsResult, getQueryItemsResult, settledValueOrEmpty]
  · simp [fetchItems, getAggregationItemsResult, getQueryItemsResult, settledValueOrEmpty]
  · simp [fetchItems, getAggregationItemsResult, getQueryItemsResult, settledValueOrEmpty]
  · intro r1 r2
    rfl
